import Mathlib

/-!
Verification of the worker runtime of the Brand-Mention Reputation Tracker
against its natural-language specification.

The definitions below are a shallow embedding of the Python sources under
`src/worker/src/worker/`.  Pure functions become Lean functions; stateful
code becomes explicit state passing; fallible code returns `Except`.
Python floats that only ever carry measured durations or parsed JSON
numbers are modelled as rationals (`ℚ`); machine integers do not overflow
in any code path modelled here.
-/

namespace Worker

/-! ### String primitives

Models of the Python string operations used by the worker, written over
`List Char` so that every definition reduces in the kernel. -/

/-- Helper for `pySplitList`: split `rest` at every non-overlapping leftmost
occurrence of the (nonempty) separator, accumulating the current part in
reverse.  `fuel` bounds the recursion; `length + 1` is always enough. -/
def pySplitGo (sep : List Char) : Nat → List Char → List Char → List (List Char)
  | 0, acc, rest => [acc.reverse ++ rest]
  | fuel + 1, acc, rest =>
    if rest = [] then [acc.reverse]
    else if sep.isPrefixOf rest then
      acc.reverse :: pySplitGo sep fuel [] (rest.drop sep.length)
    else
      match rest with
      | [] => [acc.reverse]
      | c :: cs => pySplitGo sep fuel (c :: acc) cs

/-- Python `s.split(sep)` for a nonempty separator: non-overlapping leftmost
matches, empty parts preserved. -/
def pySplitOn (s sep : String) : List String :=
  (pySplitGo sep.toList (s.toList.length + 1) [] s.toList).map String.mk

/-- Python `sep.join(parts)`. -/
def pyJoin (sep : String) (parts : List String) : String :=
  String.mk (List.intercalate sep.toList (parts.map String.toList))

/-- Python slicing `s[:n]` (by code point, as in Python). -/
def pySlice (s : String) (n : Nat) : String :=
  String.mk (s.toList.take n)

/-! ### queue_consumer.py -/

/-- Embedding of `queue_consumer.extract_brand_from_queue`:
`parts = queue_key.split(":")`; `return parts[2] if len(parts) >= 3 else "unknown"`.
The match below returns the element at index 2 exactly when the split has
at least three parts. -/
def extract_brand_from_queue (queue_key : String) : String :=
  let parts := pySplitOn queue_key ":"
  match parts with
  | _ :: _ :: b :: _ => b
  | _ => "unknown"

/-! ### llm_executor.py

The module-level state of `llm_executor.py` (`_chat_model`, `_embeddings_model`,
`_semaphore`, `_min_delay`) is initialized lazily by `_ensure_clients`, which
returns the four of them as a tuple.  We model the tuple as a `List` of
abstract components so that Python's fixed-arity unpacking (`a, b, c = t`)
can be embedded faithfully, including its failure mode. -/

/-- Python exceptions that the modelled code can raise. -/
inductive PyErr where
  | valueError (msg : String)
  | attributeError (msg : String)
  | typeError (msg : String)
  deriving Repr, DecidableEq

/-- The four module-level objects owned by `llm_executor.py`. -/
inductive GComponent where
  | chatModel
  | embeddingsModel
  | semaphore (capacity : Nat)
  | minDelay (sec : ℚ)
  deriving Repr, DecidableEq

/-- The slice of `config.Settings` consulted by `llm_executor._ensure_clients`. -/
structure GSettings where
  gemini_api_key : Option String
  llm_max_concurrency : Nat
  llm_min_delay_sec : ℚ

/-- Embedding of `llm_executor._ensure_clients`.  With an API key configured it
initializes (or returns the already-initialized) chat model, embeddings model,
semaphore of capacity `llm_max_concurrency` and min-delay, returned as a
4-tuple: `return _chat_model, _embeddings_model, _semaphore, _min_delay`.
Python truthiness: `not settings.gemini_api_key` holds for `None` and `""`. -/
def ensure_clients (s : GSettings) : Except PyErr (List GComponent) :=
  if s.gemini_api_key.getD "" = "" then
    .error (.valueError "GEMINI_API_KEY must be set when using the Gemini LLM provider")
  else
    .ok [.chatModel, .embeddingsModel, .semaphore s.llm_max_concurrency,
         .minDelay (max 0 s.llm_min_delay_sec)]

/-- Embedding of Python tuple unpacking into exactly three targets,
`a, b, c = t`: raises `ValueError` unless the tuple has exactly 3 elements. -/
def pyUnpack3 {α : Type} (xs : List α) : Except PyErr (α × α × α) :=
  match xs with
  | [a, b, c] => .ok (a, b, c)
  | _ =>
    if xs.length > 3 then .error (.valueError "too many values to unpack (expected 3)")
    else .error (.valueError "not enough values to unpack (expected 3)")

/-- Outcome of an executor helper when it gets as far as `_run_chain`:
the permit is acquired and the blocking client is invoked on a worker
thread under the timeout. -/
inductive InvokeOutcome where
  | clientInvoked (permitAcquired : Bool)
  deriving Repr, DecidableEq

/-- Embedding of `llm_executor.invoke_general`.  The source reads
`chat, _, _ = _ensure_clients()` and then builds the chain and calls
`_run_chain`, which acquires the semaphore and invokes the client. -/
def invoke_general (s : GSettings) : Except PyErr InvokeOutcome := do
  let comps ← ensure_clients s
  let (_chat, _, _) ← pyUnpack3 comps
  .ok (.clientInvoked true)

/-- Embedding of `llm_executor.invoke_prompt_text`; identical structure to
`invoke_general` (`chat, _, _ = _ensure_clients()` before `_run_chain`). -/
def invoke_prompt_text (s : GSettings) : Except PyErr InvokeOutcome := do
  let comps ← ensure_clients s
  let (_chat, _, _) ← pyUnpack3 comps
  .ok (.clientInvoked true)

/-! ### types.py : value objects -/

/-- Embedding of `types.ChunkMetrics` (all fields are durations in ms). -/
structure ChunkMetrics where
  preprocessing_time_ms : ℚ
  embedding_time_ms : ℚ
  clustering_time_ms : ℚ
  llm_time_ms : ℚ
  spike_detection_time_ms : ℚ
  io_time_ms : ℚ
  total_task_time_ms : ℚ
  deriving Repr, DecidableEq

/-- Embedding of `types.ClusterResult`. -/
structure ClusterResult where
  cluster_id : Int
  count : Nat
  examples : List String
  summary : Option String
  spike : Bool
  sentiment : List (String × ℚ)
  deriving Repr, DecidableEq

/-- Embedding of `types.ChunkResult`. -/
structure ChunkResult where
  chunk_id : String
  brand : String
  timestamp : Int
  clusters : List ClusterResult
  metrics : ChunkMetrics
  deriving Repr, DecidableEq

/-! ### processor.py / app.py : timing bookkeeping

`ChunkProcessor.process_chunk` measures, with a monotone stopwatch, the
wall time of each pipeline stage and the end-to-end processing wall time.
The stages run strictly sequentially inside the processing interval, so
the processing wall time decomposes as the sum of the five measured stage
durations plus the (nonnegative) unmeasured overhead between them.  The
`StageDurations` record carries exactly that decomposition. -/

structure StageDurations where
  preprocessing : ℚ
  embedding : ℚ
  clustering : ℚ
  llm : ℚ
  spike_detection : ℚ
  overhead : ℚ
  deriving Repr, DecidableEq

/-- All stage durations of a run are nonnegative (a stopwatch never runs
backwards; `duration_ms` reported by the clustering collaborator is a
measured wall time per spec §4.8). -/
def StageDurations.Nonneg (d : StageDurations) : Prop :=
  0 ≤ d.preprocessing ∧ 0 ≤ d.embedding ∧ 0 ≤ d.clustering ∧
    0 ≤ d.llm ∧ 0 ≤ d.spike_detection ∧ 0 ≤ d.overhead

/-- End-to-end processing wall time of `process_chunk`
(`processing_ms = (time.perf_counter() - total_start) * 1000`). -/
def processing_wall_ms (d : StageDurations) : ℚ :=
  d.preprocessing + d.embedding + d.clustering + d.llm + d.spike_detection + d.overhead

/-- Metrics as assembled by `ChunkProcessor.process_chunk`:
`metrics = ChunkMetrics(io_time_ms=fetch_time_ms)`, each stage duration is
recorded into its field, and at the end
`metrics.total_task_time_ms = processing_ms + metrics.io_time_ms`
(at which point `io_time_ms` still holds only the fetch time). -/
def process_chunk_metrics (fetch_time_ms : ℚ) (d : StageDurations) : ChunkMetrics :=
  { preprocessing_time_ms := d.preprocessing
    embedding_time_ms := d.embedding
    clustering_time_ms := d.clustering
    llm_time_ms := d.llm
    spike_detection_time_ms := d.spike_detection
    io_time_ms := fetch_time_ms
    total_task_time_ms := processing_wall_ms d + fetch_time_ms }

/-- The `ChunkResult` returned by `process_chunk`. -/
def process_chunk_result (chunk_id brand : String) (timestamp : Int)
    (clusters : List ClusterResult) (fetch_time_ms : ℚ) (d : StageDurations) : ChunkResult :=
  { chunk_id := chunk_id, brand := brand, timestamp := timestamp,
    clusters := clusters, metrics := process_chunk_metrics fetch_time_ms d }

/-- Embedding of `app.py` line `result.metrics.io_time_ms += push_time_ms`
at the metrics level: only `io_time_ms` changes. -/
def add_push_time_metrics (m : ChunkMetrics) (push_time_ms : ℚ) : ChunkMetrics :=
  { m with io_time_ms := m.io_time_ms + push_time_ms }

/-- Embedding of `app.py` line `result.metrics.io_time_ms += push_time_ms`,
executed after `push_result` has serialized and pushed the result. -/
def add_push_time (r : ChunkResult) (push_time_ms : ℚ) : ChunkResult :=
  { r with metrics := add_push_time_metrics r.metrics push_time_ms }

/-- Success path of `WorkerService._handle_payload`: `push_result` serializes
the result as it stands (first component, the snapshot that is pushed), and
afterwards the push time is added to `io_time_ms` (second component, the
object's final state). -/
def handle_payload_success (r : ChunkResult) (push_time_ms : ℚ) : ChunkResult × ChunkResult :=
  (r, add_push_time r push_time_ms)

/-! ### llm_adapter.py : mock provider and summary pathway

String primitives mirroring the Python string operations used by
`MockLLM.ainvoke` and `LangChainLLMAdapter.summarize`. -/

/-- Python `sub in hay` for a nonempty `sub`: `hay.split(sub)` has at least
two parts exactly when `sub` occurs in `hay`. -/
def pyContains (hay sub : String) : Bool :=
  2 ≤ (pySplitOn hay sub).length

/-- Python `str.lower()` (ASCII; all strings in the modelled code are ASCII). -/
def pyLower (s : String) : String :=
  String.mk (s.toList.map Char.toLower)

/-- Python's default whitespace class for `str.strip()` / `\s` (ASCII part). -/
def isPySpace (c : Char) : Bool :=
  c == ' ' || c == '\t' || c == '\n' || c == '\r' || c == '\x0b' || c == '\x0c'

/-- Python `str.strip()` with no argument: trim whitespace on both ends. -/
def pyStrip (s : String) : String :=
  String.mk (((s.toList.dropWhile isPySpace).reverse.dropWhile isPySpace).reverse)

/-- Decimal digits of the fraction `num / den` (for `num < den`), `k` digits. -/
def decimalDigits (num den : Nat) : Nat → List Nat
  | 0 => []
  | k + 1 => (num * 10) / den :: decimalDigits ((num * 10) % den) den k

/-- Model of Python `repr` of a nonnegative float arising as a small exact
fraction (the only floats serialized by `MockLLM`): integral values render
as `n.0`, other values as the decimal expansion trimmed of trailing zeros
(16 fractional digits, matching shortest-roundtrip repr for the
small-denominator fractions produced here). -/
def pyFloatLit (q : ℚ) : String :=
  let n := q.num.toNat
  let intPart := n / q.den
  let fracNum := n % q.den
  if fracNum = 0 then toString intPart ++ ".0"
  else
    let ds := decimalDigits fracNum q.den 16
    let trimmed := (ds.reverse.dropWhile (fun d => d == 0)).reverse
    toString intPart ++ "." ++ String.join (trimmed.map (fun d => toString d))

/-- `json.dumps({"positive": p, "negative": n, "neutral": u})` with insertion
order positive, negative, neutral, as built in `MockLLM.ainvoke`. -/
def mock_sentiment_json (p n u : ℚ) : String :=
  "\x7b\"positive\": " ++ pyFloatLit p ++ ", \"negative\": " ++ pyFloatLit n ++
    ", \"neutral\": " ++ pyFloatLit u ++ "\x7d"

/-- `json.dumps` of the default sentiment dict
`{"positive": 0.33, "negative": 0.33, "neutral": 0.34}`. -/
def default_sentiment_json : String :=
  "\x7b\"positive\": 0.33, \"negative\": 0.33, \"neutral\": 0.34\x7d"

def positive_words : List String :=
  ["great", "good", "love", "awesome", "excellent", "improved", "success", "fast"]

def negative_words : List String :=
  ["bad", "hate", "poor", "slow", "issue", "problem", "bug", "error"]

/-- The `"Analyse the sentiment" in text` branch of `MockLLM.ainvoke`:
take the part after the first `"Texts:\n"`, split into stripped nonempty
lines, classify each line by counting positive/negative lexicon hits, and
serialize the count fractions as JSON. -/
def mock_sentiment_branch (text : String) : String :=
  let body :=
    if pyContains text "Texts:\n" then
      pyJoin "Texts:\n" ((pySplitOn text "Texts:\n").tail)
    else text
  let lines0 := ((pySplitOn body "\n").map pyStrip).filter (fun l => l ≠ "")
  let lines :=
    if lines0 = [] then (if pyStrip body ≠ "" then [pyStrip body] else []) else lines0
  let counts := lines.foldl
    (fun (acc : Nat × Nat × Nat) line =>
      let lower := pyLower line
      let pos_hits := (positive_words.filter (fun w => pyContains lower w)).length
      let neg_hits := (negative_words.filter (fun w => pyContains lower w)).length
      if pos_hits > neg_hits then (acc.1 + 1, acc.2.1, acc.2.2)
      else if neg_hits > pos_hits then (acc.1, acc.2.1 + 1, acc.2.2)
      else (acc.1, acc.2.1, acc.2.2 + 1))
    (0, 0, 0)
  let positive := counts.1
  let negative := counts.2.1
  let neutral := counts.2.2
  let total := if positive + negative + neutral = 0 then 1 else positive + negative + neutral
  mock_sentiment_json ((positive : ℚ) / (total : ℚ)) ((negative : ℚ) / (total : ℚ))
    ((neutral : ℚ) / (total : ℚ))

/-- Embedding of `MockLLM.ainvoke` on a string input (the adapter always
passes the rendered prompt string):
`summary = text.split("\n")[0][:160] if text else ""`; the
`"Analyse the sentiment"` branch; then
`if "summary" in text.lower(): return summary or "no summary available"`;
otherwise `json.dumps` of the default sentiment dict. -/
def mock_ainvoke (text : String) : String :=
  let summary := if text = "" then "" else pySlice ((pySplitOn text "\n").headD "") 160
  if pyContains text "Analyse the sentiment" then
    mock_sentiment_branch text
  else if pyContains (pyLower text) "summary" then
    (if summary = "" then "no summary available" else summary)
  else
    default_sentiment_json

/-- Rendering of `SUMMARY_PROMPT` (`llm_adapter.py` lines 23-27) with
`max_tokens` and `joined_texts = "\n".join(texts)` substituted, as done by
`LangChainLLMAdapter.summarize`. -/
def summary_prompt_render (max_tokens : Nat) (texts : List String) : String :=
  "You are an analyst summarizing brand mentions.\nSummarize the following texts into a concise overview (max "
    ++ toString max_tokens ++ " tokens).\nTexts:\n" ++ pyJoin "\n" texts ++ "\n"

/-- `LangChainLLMAdapter.summarize` with `MockLLM` as primary (the `mock`
provider configuration: primary `MockLLM()`, fallback `None`): render the
prompt, invoke the mock, and return the response unchanged (a `str` has no
`content` attribute, so `_invoke` returns it as is). -/
def mock_summarize (max_tokens : Nat) (texts : List String) : String :=
  mock_ainvoke (summary_prompt_render max_tokens texts)

/-! ### Python values and `json.loads`

`PyVal` is the space of Python values that can result from `json.loads`
or be returned by an LLM provider.  `jsonLoads` is a model of the strict
JSON parser of Python's `json` module (numbers are modelled as exact
rationals). -/

inductive PyVal where
  | pynone
  | pybool (b : Bool)
  | pyint (n : Int)
  | pyfloat (q : ℚ)
  | pystr (s : String)
  | pylist (xs : List PyVal)
  | pydict (kvs : List (String × PyVal))

/-- The Python type name of a value, as used in exception messages. -/
def pyTypeName : PyVal → String
  | .pynone => "NoneType"
  | .pybool _ => "bool"
  | .pyint _ => "int"
  | .pyfloat _ => "float"
  | .pystr _ => "str"
  | .pylist _ => "list"
  | .pydict _ => "dict"

def isJsonWs (c : Char) : Bool :=
  c == ' ' || c == '\t' || c == '\n' || c == '\r'

def skipJsonWs : List Char → List Char
  | [] => []
  | c :: cs => if isJsonWs c then skipJsonWs cs else c :: cs

def isDigitChar (c : Char) : Bool :=
  '0' ≤ c && c ≤ '9'

def digitsToNat (ds : List Char) : Nat :=
  ds.foldl (fun a c => a * 10 + (c.toNat - 48)) 0

def parseHexDigit (c : Char) : Option Nat :=
  if '0' ≤ c && c ≤ '9' then some (c.toNat - 48)
  else if 'a' ≤ c && c ≤ 'f' then some (c.toNat - 87)
  else if 'A' ≤ c && c ≤ 'F' then some (c.toNat - 55)
  else none

/-- Parse the remainder of a JSON string literal (the opening quote already
consumed), handling the escape sequences of the JSON grammar. -/
def parseJsonStr (fuel : Nat) (acc : List Char) (cs : List Char) :
    Option (String × List Char) :=
  match fuel, cs with
  | 0, _ => none
  | _, [] => none
  | fuel + 1, c :: cs =>
    if c == '"' then some (String.mk acc.reverse, cs)
    else if c == '\\' then
      match cs with
      | [] => none
      | e :: cs' =>
        if e == '"' then parseJsonStr fuel ('"' :: acc) cs'
        else if e == '\\' then parseJsonStr fuel ('\\' :: acc) cs'
        else if e == '/' then parseJsonStr fuel ('/' :: acc) cs'
        else if e == 'b' then parseJsonStr fuel ('\x08' :: acc) cs'
        else if e == 'f' then parseJsonStr fuel ('\x0c' :: acc) cs'
        else if e == 'n' then parseJsonStr fuel ('\n' :: acc) cs'
        else if e == 'r' then parseJsonStr fuel ('\r' :: acc) cs'
        else if e == 't' then parseJsonStr fuel ('\t' :: acc) cs'
        else if e == 'u' then
          match cs' with
          | h1 :: h2 :: h3 :: h4 :: cs'' =>
            match parseHexDigit h1, parseHexDigit h2, parseHexDigit h3, parseHexDigit h4 with
            | some a, some b, some c', some d =>
              let n := ((a * 16 + b) * 16 + c') * 16 + d
              if n < 1114112 ∧ ¬(55296 ≤ n ∧ n < 57344) then
                parseJsonStr fuel (Char.ofNat n :: acc) cs''
              else none
            | _, _, _, _ => none
          | _ => none
        else none
    else parseJsonStr fuel (c :: acc) cs

/-- Parse a strict JSON number: `-? int frac? exp?` with `int` free of
leading zeros.  Returns the components and the rest. -/
def parseJsonNumber (cs : List Char) : Option (PyVal × List Char) :=
  let (neg, cs1) :=
    match cs with
    | '-' :: rest => (true, rest)
    | _ => (false, cs)
  let intDigits := cs1.takeWhile isDigitChar
  let cs2 := cs1.drop intDigits.length
  if intDigits = [] then none
  else if intDigits.length > 1 ∧ intDigits.headD '0' = '0' then none
  else
    let (fracDigits, cs3) :=
      match cs2 with
      | '.' :: rest =>
        let fd := rest.takeWhile isDigitChar
        (fd, rest.drop fd.length)
      | _ => ([], cs2)
    if cs2 ≠ cs3 ∧ fracDigits = [] then none
    else
      let expPart :
          Option (Bool × List Char × List Char) :=
        match cs3 with
        | 'e' :: rest | 'E' :: rest =>
          let (eneg, rest1) :=
            match rest with
            | '-' :: r => (true, r)
            | '+' :: r => (false, r)
            | _ => (false, rest)
          let ed := rest1.takeWhile isDigitChar
          if ed = [] then none else some (eneg, ed, rest1.drop ed.length)
        | _ => none
      let hasFrac := fracDigits ≠ []
      match cs3, expPart with
      | 'e' :: _, none => none
      | 'E' :: _, none => none
      | _, some (eneg, ed, cs4) =>
        let mant : ℚ := ((digitsToNat (intDigits ++ fracDigits) : ℚ)) /
          ((10 : ℚ) ^ fracDigits.length)
        let e := digitsToNat ed
        let q := if eneg then mant / (10 : ℚ) ^ e else mant * (10 : ℚ) ^ e
        some (.pyfloat (if neg then -q else q), cs4)
      | _, none =>
        if hasFrac then
          let mant : ℚ := ((digitsToNat (intDigits ++ fracDigits) : ℚ)) /
            ((10 : ℚ) ^ fracDigits.length)
          some (.pyfloat (if neg then -mant else mant), cs3)
        else
          let n : Int := (digitsToNat intDigits : Int)
          some (.pyint (if neg then -n else n), cs3)

/-- Parsing mode of the recursive-descent JSON parser: a single value, the
items of a nonempty array, or the members of a nonempty object.  A single
mode-indexed function keeps the recursion structural on the fuel so that
it reduces in the kernel. -/
inductive PMode where
  | val
  | items (acc : List PyVal)
  | pairs (acc : List (String × PyVal))

/-- Recursive-descent JSON parser (fuel-bounded; `jsonLoads` supplies enough
fuel for any input). -/
def parseJ : Nat → PMode → List Char → Option (PyVal × List Char)
  | 0, _, _ => none
  | fuel + 1, .val, cs =>
    (match skipJsonWs cs with
     | [] => none
     | c :: rest =>
       if c == 'n' then
         match rest with
         | 'u' :: 'l' :: 'l' :: rest' => some (.pynone, rest')
         | _ => none
       else if c == 't' then
         match rest with
         | 'r' :: 'u' :: 'e' :: rest' => some (.pybool true, rest')
         | _ => none
       else if c == 'f' then
         match rest with
         | 'a' :: 'l' :: 's' :: 'e' :: rest' => some (.pybool false, rest')
         | _ => none
       else if c == '"' then
         match parseJsonStr (rest.length + 1) [] rest with
         | some (s, rest') => some (.pystr s, rest')
         | none => none
       else if c == '[' then
         match skipJsonWs rest with
         | ']' :: rest' => some (.pylist [], rest')
         | _ => parseJ fuel (.items []) rest
       else if c == Char.ofNat 123 then
         match skipJsonWs rest with
         | r :: rest' =>
           if r == Char.ofNat 125 then some (.pydict [], rest')
           else parseJ fuel (.pairs []) (r :: rest')
         | [] => none
       else
         parseJsonNumber (c :: rest))
  | fuel + 1, .items acc, cs =>
    (match parseJ fuel .val cs with
     | none => none
     | some (v, rest) =>
       match skipJsonWs rest with
       | ',' :: rest' => parseJ fuel (.items (v :: acc)) rest'
       | ']' :: rest' => some (.pylist (v :: acc).reverse, rest')
       | _ => none)
  | fuel + 1, .pairs acc, cs =>
    (match skipJsonWs cs with
     | '"' :: rest =>
       match parseJsonStr (rest.length + 1) [] rest with
       | none => none
       | some (k, rest1) =>
         match skipJsonWs rest1 with
         | ':' :: rest2 =>
           match parseJ fuel .val rest2 with
           | none => none
           | some (v, rest3) =>
             match skipJsonWs rest3 with
             | ',' :: rest4 => parseJ fuel (.pairs ((k, v) :: acc)) rest4
             | r :: rest4 =>
               if r == Char.ofNat 125 then some (.pydict ((k, v) :: acc).reverse, rest4)
               else none
             | [] => none
         | _ => none
     | _ => none)

/-- Model of Python `json.loads`: parse one JSON value, then require only
whitespace to remain.  `.error ()` is `json.JSONDecodeError`. -/
def jsonLoads (s : String) : Except Unit PyVal :=
  match parseJ (2 * s.toList.length + 8) .val s.toList with
  | some (v, rest) => if skipJsonWs rest = [] then .ok v else .error ()
  | none => .error ()

/-- Python `float(str)`: strip whitespace, optional sign, digits with an
optional decimal point and exponent (at least one digit overall).
`inf`/`nan` literals and underscore separators are not modelled; no code
path in the worker produces them. -/
def parsePyFloat (s : String) : Option ℚ :=
  let cs0 := ((s.toList.dropWhile isPySpace).reverse.dropWhile isPySpace).reverse
  let (neg, cs1) :=
    match cs0 with
    | '-' :: r => (true, r)
    | '+' :: r => (false, r)
    | _ => (false, cs0)
  let intd := cs1.takeWhile isDigitChar
  let cs2 := cs1.drop intd.length
  let (fracd, cs3) :=
    match cs2 with
    | '.' :: r => (r.takeWhile isDigitChar, r.drop (r.takeWhile isDigitChar).length)
    | _ => ([], cs2)
  if intd = [] ∧ fracd = [] then none
  else
    let mant : ℚ := (digitsToNat (intd ++ fracd) : ℚ) / (10 : ℚ) ^ fracd.length
    let res : Option ℚ :=
      match cs3 with
      | [] => some mant
      | 'e' :: r | 'E' :: r =>
        let (eneg, r1) :=
          match r with
          | '-' :: rr => (true, rr)
          | '+' :: rr => (false, rr)
          | _ => (false, r)
        let ed := r1.takeWhile isDigitChar
        if ed = [] ∨ r1.drop ed.length ≠ [] then none
        else some (if eneg then mant / (10 : ℚ) ^ digitsToNat ed
                   else mant * (10 : ℚ) ^ digitsToNat ed)
      | _ => none
    match res with
    | some q => some (if neg then -q else q)
    | none => none

/-- Python `float(x)` coercion as applied by `sentiment` to each field. -/
def pyFloat (v : PyVal) : Except PyErr ℚ :=
  match v with
  | .pybool b => .ok (if b then 1 else 0)
  | .pyint n => .ok (n : ℚ)
  | .pyfloat q => .ok q
  | .pystr s =>
    match parsePyFloat s with
    | some q => .ok q
    | none => .error (.valueError ("could not convert string to float: " ++ s))
  | v => .error (.typeError ("float() argument must be a string or a real number, not "
      ++ pyTypeName v))

/-- Python `dict.get(key, default)`.  JSON object construction keeps the last
value bound to a duplicated key, so lookup scans from the end. -/
def pyDictGet (kvs : List (String × PyVal)) (key : String) (dflt : PyVal) : PyVal :=
  match kvs.reverse.find? (fun kv => kv.1 == key) with
  | some kv => kv.2
  | none => dflt

/-- The default sentiment dict `{"positive": 0.33, "negative": 0.33,
"neutral": 0.34}` built by `sentiment` on parse failure. -/
def default_sentiment_dict : PyVal :=
  .pydict [("positive", .pyfloat (33 / 100)), ("negative", .pyfloat (33 / 100)),
           ("neutral", .pyfloat (34 / 100))]

/-- The response-handling tail of `LangChainLLMAdapter.sentiment`
(`llm_adapter.py` lines 123-136): a string response is JSON-parsed with
`json.JSONDecodeError` mapped to the default dict; a dict response is used
as is; any other response becomes the default dict.  Then
`parsed.get("positive", 0.0)` etc. are coerced with `float(...)` — which
raises `AttributeError` when `parsed` is not a dict, and may raise
`ValueError`/`TypeError` from the coercion. -/
def sentiment_parse (response : PyVal) : Except PyErr (ℚ × ℚ × ℚ) :=
  let parsed : PyVal :=
    match response with
    | .pystr s =>
      match jsonLoads s with
      | .ok v => v
      | .error _ => default_sentiment_dict
    | .pydict kvs => .pydict kvs
    | _ => default_sentiment_dict
  match parsed with
  | .pydict kvs => do
    let p ← pyFloat (pyDictGet kvs "positive" (.pyfloat 0))
    let n ← pyFloat (pyDictGet kvs "negative" (.pyfloat 0))
    let u ← pyFloat (pyDictGet kvs "neutral" (.pyfloat 1))
    .ok (p, n, u)
  | v => .error (.attributeError (pyTypeName v ++ " object has no attribute get"))

/-! ### app.py : `_handle_payload` queue effects

`safe_json_loads` lives in `utils.py`, which is not part of the sources;
it is modelled from the spec.  Schema validation (`Chunk.model_validate`)
is the pydantic validation of `types.Chunk`; ISO-8601 date parsing is not
modelled (any string is accepted as a datetime), which does not affect the
success/failure dichotomy verified here. -/

/-- Modelled from the spec: `utils.safe_json_loads` (§4.10 step 2,
"JSON-decode payload → on failure, record failure with reason
`json_decode`"); `_handle_payload` catches `ValueError` from it. -/
def safe_json_loads (payload : String) : Except PyErr PyVal :=
  match jsonLoads payload with
  | .ok v => .ok v
  | .error _ => .error (.valueError "Invalid JSON payload")

/-- Dict field lookup honoring a pydantic alias with `populate_by_name`:
the alias is consulted first, then the field name. -/
def aliasFind (kvs : List (String × PyVal)) (aliasKey fieldName : String) : Option PyVal :=
  match (kvs.reverse.find? (fun kv => kv.1 == aliasKey)).map Prod.snd with
  | some v => some v
  | none => (kvs.reverse.find? (fun kv => kv.1 == fieldName)).map Prod.snd

/-- Plain dict field lookup (no alias). -/
def pyDictFind (kvs : List (String × PyVal)) (key : String) : Option PyVal :=
  (kvs.reverse.find? (fun kv => kv.1 == key)).map Prod.snd

/-- A `str` field value. -/
def validStr : Option PyVal → Option String
  | some (.pystr s) => some s
  | _ => none

/-- A `datetime` field value: pydantic accepts an ISO string or an epoch
number (ISO syntax itself not modelled). -/
def validDatetime : Option PyVal → Bool
  | some (.pystr _) => true
  | some (.pyint _) => true
  | some (.pyfloat _) => true
  | _ => false

/-- A `dict[str, float]` value, with pydantic float coercion per entry. -/
def validFloatDict : PyVal → Bool
  | .pydict kvs => kvs.all (fun kv =>
      match kv.2 with
      | .pyint _ => true
      | .pyfloat _ => true
      | .pybool _ => true
      | .pystr s => (parsePyFloat s).isSome
      | _ => false)
  | _ => false

/-- Validation of one element of `Chunk.mentions` against `types.Mention`. -/
def validMention (v : PyVal) : Bool :=
  match v with
  | .pydict kvs =>
    (validStr (pyDictFind kvs "id")).isSome &&
    (validStr (pyDictFind kvs "source")).isSome &&
    (validStr (pyDictFind kvs "text")).isSome &&
    validDatetime (pyDictFind kvs "created_at") &&
    (match pyDictFind kvs "sentiment" with
     | Option.none => true
     | some .pynone => true
     | some w => validFloatDict w) &&
    (match pyDictFind kvs "metadata" with
     | Option.none => true
     | some .pynone => true
     | some (.pydict _) => true
     | some _ => false)
  | _ => false

/-- Validation of the optional `Chunk.meta` against `types.ChunkMeta`. -/
def validMeta : Option PyVal → Bool
  | Option.none => true
  | some .pynone => true
  | some (.pydict kvs) =>
    (match aliasFind kvs "chunkIndex" "chunk_index" with
     | Option.none => true
     | some .pynone => true
     | some (.pyint _) => true
     | some _ => false) &&
    (match aliasFind kvs "totalChunks" "total_chunks" with
     | Option.none => true
     | some .pynone => true
     | some (.pyint _) => true
     | some _ => false)
  | some _ => false

/-- The fields of a validated `types.Chunk` that `_handle_payload` reads. -/
structure Chunk where
  brand : String
  chunk_id : String
  deriving Repr, DecidableEq

/-- Embedding of `Chunk.model_validate` over a decoded JSON value
(`types.Chunk`: required `brand`, `chunkId`, `createdAt`, `mentions`;
optional `meta`; aliases with `populate_by_name`). -/
def chunk_validate (raw : PyVal) : Except String Chunk :=
  match raw with
  | .pydict kvs =>
    match validStr (pyDictFind kvs "brand") with
    | Option.none => .error "brand: field required or not a string"
    | some brand =>
      match validStr (aliasFind kvs "chunkId" "chunk_id") with
      | Option.none => .error "chunkId: field required or not a string"
      | some cid =>
        if !validDatetime (aliasFind kvs "createdAt" "created_at") then
          .error "createdAt: field required or not a datetime"
        else
          match pyDictFind kvs "mentions" with
          | some (.pylist ms) =>
            if !ms.all validMention then .error "mentions: invalid mention"
            else if !validMeta (pyDictFind kvs "meta") then .error "meta: invalid"
            else .ok { brand := brand, chunk_id := cid }
          | _ => .error "mentions: field required or not a list"
  | _ => .error "value is not a valid dict"

/-- One append effect of `_handle_payload` on the shared store, assuming
the append itself succeeds. -/
inductive QueueOp where
  | pushResult (brand : String)
  | pushFailure (brand : String) (reason_label : String)
  deriving Repr, DecidableEq

/-- Embedding of `WorkerService._handle_payload` as its sequence of queue
appends (assuming the store appends themselves succeed).  `processOk`
abstracts the outcome of `process_chunk` (embedding, clustering, LLM,
spike detection): `false` means it raised.  The brand routing follows the
source: failures before validation go to the queue-key brand hint, later
ones to `chunk.brand or brand_hint`. -/
def handle_payload_ops (queue_key payload : String) (processOk : Bool) : List QueueOp :=
  let brand_hint := extract_brand_from_queue queue_key
  match safe_json_loads payload with
  | .error _ => [.pushFailure brand_hint "json_decode"]
  | .ok raw =>
    match chunk_validate raw with
    | .error _ => [.pushFailure brand_hint "validation"]
    | .ok chunk =>
      let chunk_brand := if chunk.brand ≠ "" then chunk.brand else brand_hint
      if processOk then [.pushResult chunk_brand]
      else [.pushFailure chunk_brand "processing"]

/-- Number of appends to a result queue in a list of effects. -/
def countResultOps (ops : List QueueOp) : Nat :=
  (ops.filter fun op => match op with | .pushResult _ => true | _ => false).length

/-- Number of appends to a failure queue in a list of effects. -/
def countFailureOps (ops : List QueueOp) : Nat :=
  (ops.filter fun op => match op with | .pushFailure _ _ => true | _ => false).length

/-! ### processor.py : preprocessing -/

/-- Attempt to match the regex `https?://\S+` at the head of `cs`
(the greedy optional `s` is tried first, as the regex engine does);
on success return the remainder after the maximal match. -/
def matchUrlAt (cs : List Char) : Option (List Char) :=
  let tryFrom : List Char → Option (List Char) := fun rest =>
    match rest with
    | ':' :: '/' :: '/' :: tail =>
      let nonsp := tail.takeWhile (fun c => !isPySpace c)
      if nonsp = [] then none else some (tail.drop nonsp.length)
    | _ => none
  match cs with
  | 'h' :: 't' :: 't' :: 'p' :: rest =>
    (match rest with
     | 's' :: rest2 =>
       (match tryFrom rest2 with
        | some r => some r
        | none => tryFrom rest)
     | _ => tryFrom rest)
  | _ => none

/-- `CLEAN_URL_RE.sub("", text)` (`re.sub(r"https?://\S+", "", text)`):
delete every non-overlapping leftmost match.  Fuel-bounded scan
(`length + 1` always suffices). -/
def stripUrlsGo : Nat → List Char → List Char
  | 0, cs => cs
  | fuel + 1, cs =>
    match cs with
    | [] => []
    | c :: cs' =>
      match matchUrlAt (c :: cs') with
      | some rest => stripUrlsGo fuel rest
      | none => c :: stripUrlsGo fuel cs'

/-- `CLEAN_WHITESPACE_RE.sub(" ", text)` (`re.sub(r"\s+", " ", text)`). -/
def collapseWsGo : Nat → List Char → List Char
  | 0, cs => cs
  | fuel + 1, cs =>
    match cs with
    | [] => []
    | c :: cs' =>
      if isPySpace c then ' ' :: collapseWsGo fuel (cs'.dropWhile isPySpace)
      else c :: collapseWsGo fuel cs'

/-- Embedding of `ChunkProcessor._clean_text`: strip URLs, collapse
whitespace runs to single spaces, trim, lowercase. -/
def clean_text (text : String) : String :=
  let t1 := stripUrlsGo (text.toList.length + 1) text.toList
  let t2 := collapseWsGo (t1.length + 1) t1
  let t3 := ((t2.dropWhile isPySpace).reverse.dropWhile isPySpace).reverse
  String.mk (t3.map Char.toLower)

/-- Embedding of `types.Mention` (`created_at` and `metadata` carried as
opaque payloads; `_preprocess` copies them unchanged). -/
structure Mention where
  id : String
  source : String
  text : String
  created_at : String
  sentiment : Option (List (String × ℚ))
  metadata : Option String
  deriving Repr, DecidableEq

/-- The mention stored in the dedup dict by `_preprocess`: same fields,
text replaced by the cleaned text. -/
def rebuiltMention (m : Mention) (cleaned : String) : Mention :=
  { m with text := cleaned }

/-- The loop of `ChunkProcessor._preprocess` over the chunk's mentions,
with the insertion-ordered Python dict `dedup` modelled as an association
list (append at the end = insert a new key). -/
def preprocess_go (dedup : List (String × Mention)) : List Mention → List (String × Mention)
  | [] => dedup
  | m :: ms =>
    let cleaned := clean_text m.text
    if cleaned = "" then preprocess_go dedup ms
    else if cleaned ∈ dedup.map Prod.fst then preprocess_go dedup ms
    else preprocess_go (dedup ++ [(cleaned, rebuiltMention m cleaned)]) ms

/-- Embedding of `ChunkProcessor._preprocess`: the returned
`list(dedup.values())`. -/
def preprocess (mentions : List Mention) : List Mention :=
  (preprocess_go [] mentions).map Prod.snd

/-- Specification-side restatement (§4.8 step 1, §8 invariant 4): keep the
first occurrence of each string, dropping all later duplicates, order
preserved.  Used to state the refinement for the dict-based `preprocess`. -/
def dedup_first : List String → List String
  | [] => []
  | x :: xs => x :: dedup_first (xs.filter (fun y => y ≠ x))
termination_by l => l.length
decreasing_by
  simp only [List.length_cons]
  exact Nat.lt_succ_of_le (List.length_filter_le _ _)

/-! ### embeddings.py : hash fallback

SHA-256 (FIPS 180-4) over byte lists, with 32-bit words as `Nat` reduced
`% 2^32`, followed by the repeat-tiling of
`LocalEmbeddingAdapter._hash_embed`. -/

def w32mod : Nat := 4294967296

def add32 (a b : Nat) : Nat := (a + b) % w32mod

def rotr32 (x n : Nat) : Nat := ((x >>> n) ||| (x <<< (32 - n))) % w32mod

def not32 (a : Nat) : Nat := a.xor (w32mod - 1)

def bigSigma0 (x : Nat) : Nat := (rotr32 x 2).xor ((rotr32 x 13).xor (rotr32 x 22))

def bigSigma1 (x : Nat) : Nat := (rotr32 x 6).xor ((rotr32 x 11).xor (rotr32 x 25))

def smallSigma0 (x : Nat) : Nat := (rotr32 x 7).xor ((rotr32 x 18).xor (x >>> 3))

def smallSigma1 (x : Nat) : Nat := (rotr32 x 17).xor ((rotr32 x 19).xor (x >>> 10))

def chFn (x y z : Nat) : Nat := (x.land y).xor ((not32 x).land z)

def majFn (x y z : Nat) : Nat := ((x.land y).xor (x.land z)).xor (y.land z)

/-- The 64 SHA-256 round constants. -/
def sha256K : List Nat :=
  [1116352408, 1899447441, 3049323471, 3921009573,
   961987163, 1508970993, 2453635748, 2870763221,
   3624381080, 310598401, 607225278, 1426881987,
   1925078388, 2162078206, 2614888103, 3248222580,
   3835390401, 4022224774, 264347078, 604807628,
   770255983, 1249150122, 1555081692, 1996064986,
   2554220882, 2821834349, 2952996808, 3210313671,
   3336571891, 3584528711, 113926993, 338241895,
   666307205, 773529912, 1294757372, 1396182291,
   1695183700, 1986661051, 2177026350, 2456956037,
   2730485921, 2820302411, 3259730800, 3345764771,
   3516065817, 3600352804, 4094571909, 275423344,
   430227734, 506948616, 659060556, 883997877,
   958139571, 1322822218, 1537002063, 1747873779,
   1955562222, 2024104815, 2227730452, 2361852424,
   2428436474, 2756734187, 3204031479, 3329325298]

/-- Working variables / hash state: eight 32-bit words. -/
structure Hash8 where
  a : Nat
  b : Nat
  c : Nat
  d : Nat
  e : Nat
  f : Nat
  g : Nat
  h : Nat
  deriving Repr, DecidableEq

/-- SHA-256 initial hash value. -/
def sha256H0 : Hash8 :=
  ⟨1779033703, 3144134277, 1013904242, 2773480762,
   1359893119, 2600822924, 528734635, 1541459225⟩

/-- Big-endian 32-bit words of a 64-byte block. -/
def wordsOfBlock (block : List Nat) : List Nat :=
  (List.range 16).map (fun i =>
    ((block.getD (4 * i) 0) <<< 24) + ((block.getD (4 * i + 1) 0) <<< 16) +
      ((block.getD (4 * i + 2) 0) <<< 8) + block.getD (4 * i + 3) 0)

/-- Message-schedule extension of the 16 block words to 64. -/
def extendWords (ws : List Nat) : List Nat :=
  (List.range 48).foldl
    (fun acc _ =>
      let n := acc.length
      acc ++ [add32 (add32 (acc.getD (n - 16) 0) (smallSigma0 (acc.getD (n - 15) 0)))
              (add32 (acc.getD (n - 7) 0) (smallSigma1 (acc.getD (n - 2) 0)))])
    ws

/-- One SHA-256 round; `wk = (wᵢ, kᵢ)`. -/
def compressStep (st : Hash8) (wk : Nat × Nat) : Hash8 :=
  let t1 := add32 st.h (add32 (bigSigma1 st.e) (add32 (chFn st.e st.f st.g) (add32 wk.2 wk.1)))
  let t2 := add32 (bigSigma0 st.a) (majFn st.a st.b st.c)
  ⟨add32 t1 t2, st.a, st.b, st.c, add32 st.d t1, st.e, st.f, st.g⟩

/-- Compression of one 64-byte block into the running hash. -/
def compressBlock (H : Hash8) (block : List Nat) : Hash8 :=
  let ws := extendWords (wordsOfBlock block)
  let st := (ws.zip sha256K).foldl compressStep H
  ⟨add32 H.a st.a, add32 H.b st.b, add32 H.c st.c, add32 H.d st.d,
   add32 H.e st.e, add32 H.f st.f, add32 H.g st.g, add32 H.h st.h⟩

/-- Big-endian bytes of the 64-bit message bit length. -/
def bytesOfNat64 (n : Nat) : List Nat :=
  [(n >>> 56) % 256, (n >>> 48) % 256, (n >>> 40) % 256, (n >>> 32) % 256,
   (n >>> 24) % 256, (n >>> 16) % 256, (n >>> 8) % 256, n % 256]

/-- SHA-256 padding: `0x80`, zeros to 56 mod 64, 8-byte bit length. -/
def sha256pad (msg : List Nat) : List Nat :=
  let len := msg.length
  let padZeros := (119 - len % 64) % 64
  msg ++ [128] ++ List.replicate padZeros 0 ++ bytesOfNat64 (len * 8)

/-- Split a byte list into 64-byte blocks (fuel-bounded). -/
def chunk64 : Nat → List Nat → List (List Nat)
  | 0, _ => []
  | fuel + 1, bytes =>
    match bytes with
    | [] => []
    | _ => bytes.take 64 :: chunk64 fuel (bytes.drop 64)

/-- Big-endian bytes of one 32-bit word. -/
def bytes4 (w : Nat) : List Nat :=
  [(w >>> 24) % 256, (w >>> 16) % 256, (w >>> 8) % 256, w % 256]

/-- SHA-256 digest (32 bytes) of a byte list
(`hashlib.sha256(...).digest()`). -/
def sha256 (msg : List Nat) : List Nat :=
  let padded := sha256pad msg
  let Hf := (chunk64 (padded.length + 1) padded).foldl compressBlock sha256H0
  bytes4 Hf.a ++ bytes4 Hf.b ++ bytes4 Hf.c ++ bytes4 Hf.d ++
    bytes4 Hf.e ++ bytes4 Hf.f ++ bytes4 Hf.g ++ bytes4 Hf.h

/-- UTF-8 encoding of one character (`text.encode("utf-8")`). -/
def utf8EncodeChar (c : Char) : List Nat :=
  let n := c.toNat
  if n < 128 then [n]
  else if n < 2048 then [192 + n / 64, 128 + n % 64]
  else if n < 65536 then [224 + n / 4096, 128 + (n / 64) % 64, 128 + n % 64]
  else [240 + n / 262144, 128 + (n / 4096) % 64, 128 + (n / 64) % 64, 128 + n % 64]

/-- UTF-8 bytes of a string. -/
def utf8Encode (s : String) : List Nat :=
  (s.toList.map utf8EncodeChar).flatten

/-- The per-byte conversion of `_hash_embed`: `np.frombuffer(...) / 255.0`. -/
def byteToUnit (b : Nat) : ℚ :=
  (b : ℚ) / 255

/-- Embedding of `LocalEmbeddingAdapter._hash_embed` for one text: SHA-256
the UTF-8 bytes, repeat-tile the digest to length `dim`
(`repeat_factor = (dim + len(digest) - 1) // len(digest)`,
`repeated = (digest * repeat_factor)[:dim]`), divide by 255. -/
def hash_embed_row (dim : Nat) (text : String) : List ℚ :=
  let digest := sha256 (utf8Encode text)
  let repeat_factor := (dim + digest.length - 1) / digest.length
  let repeated := (List.replicate repeat_factor digest).flatten.take dim
  repeated.map byteToUnit

/-- `_hash_embed` over the whole text list: the N×D zeros matrix filled
row by row, row `i` from text `i`. -/
def hash_embed (dim : Nat) (texts : List String) : List (List ℚ) :=
  texts.map (hash_embed_row dim)

/-! ### config.py : settings singleton and worker id -/

/-- The state of a `Settings` instance relevant to `effective_worker_id`:
the configured `worker_id` and the lazily generated
`_generated_worker_id`. -/
structure SettingsObj where
  worker_id : Option String
  generated_worker_id : Option String
  deriving Repr, DecidableEq

/-- Process-wide state: the environment value of `WORKER_ID` (read at
`Settings()` construction), the `functools.lru_cache` cell of
`get_settings`, and a supply of fresh UUIDs (`uuid.uuid4()` returns
`uuid_supply uuid_counter` and advances the counter). -/
structure ProcState where
  env_worker_id : Option String
  uuid_supply : Nat → String
  uuid_counter : Nat
  settings_cache : Option SettingsObj

/-- Embedding of `config.get_settings` (`@lru_cache(maxsize=1)`):
construct the `Settings` instance on the first call, return the cached
instance on every later call. -/
def get_settings (s : ProcState) : SettingsObj × ProcState :=
  match s.settings_cache with
  | some obj => (obj, s)
  | none =>
    let obj : SettingsObj := ⟨s.env_worker_id, none⟩
    (obj, { s with settings_cache := some obj })

/-- Embedding of `Settings.effective_worker_id` accessed through
`get_settings()`: `if self.worker_id: return self.worker_id` (Python
truthiness: `None` and `""` fall through), then return the stored
`_generated_worker_id` or generate `worker-<uuid4>` once and store it on
the cached instance. -/
def effective_worker_id (s : ProcState) : String × ProcState :=
  let p := get_settings s
  let obj := p.1
  let s1 := p.2
  if obj.worker_id.getD "" ≠ "" then (obj.worker_id.getD "", s1)
  else
    match obj.generated_worker_id with
    | some g => (g, s1)
    | none =>
      let g := "worker-" ++ s1.uuid_supply s1.uuid_counter
      (g, { s1 with
              uuid_counter := s1.uuid_counter + 1,
              settings_cache := some { obj with generated_worker_id := some g } })

/-- The result and state after the `n`-th call (0-based) of
`get_settings().effective_worker_id` within one process. -/
def worker_id_calls (s : ProcState) : Nat → String × ProcState
  | 0 => effective_worker_id s
  | n + 1 => effective_worker_id (worker_id_calls s n).2

/-! ### Concrete sample values used by counterexamples -/

/-- A run whose only processing wall time is 1 ms of unmeasured overhead
(for instance the empty-mentions short-circuit). -/
def sample_stage_durations : StageDurations := ⟨0, 0, 0, 0, 0, 1⟩

/-- The `ChunkResult` returned by `process_chunk` for that run with zero
fetch time. -/
def sample_chunk_result : ChunkResult :=
  process_chunk_result "c1" "acme" 0 [] 0 sample_stage_durations

/-! ## Theorems -/

set_option maxRecDepth 100000

/-- The rendered summary prompt always has positive length (it starts with
the fixed template text). -/
theorem summary_prompt_render_length (mt : Nat) (texts : List String) :
    0 < (summary_prompt_render mt texts).length := by
  have h1 : 0 < ("You are an analyst summarizing brand mentions.\nSummarize the following texts into a concise overview (max ").length := by
    decide
  unfold summary_prompt_render
  simp only [String.length_append]
  omega

/-- The rendered summary prompt is never the empty string. -/
theorem summary_prompt_render_ne_empty (mt : Nat) (texts : List String) :
    summary_prompt_render mt texts ≠ "" := by
  intro h
  have hl := summary_prompt_render_length mt texts
  rw [h] at hl
  simp at hl

/-- C1: `extract_brand_from_queue` does not return the `<brand>` segment of
a `<prefix>:<brand>:chunks` key: on the scenario key `q:acme:chunks` it
returns the third segment `"chunks"` (index 2), not `"acme"`, so the
S2 failure record is routed under brand `"chunks"`.  (The missing-segment
fallback to `"unknown"` does hold.) -/
theorem claim_C1 :
    extract_brand_from_queue "q:acme:chunks" = "chunks" ∧
    extract_brand_from_queue "q:acme:chunks" ≠ "acme" ∧
    extract_brand_from_queue "q:chunks" = "unknown" := by
  refine ⟨by decide, by decide, by decide⟩

/-- C2: with `gemini_api_key` configured, `invoke_general` and
`invoke_prompt_text` never reach the client invocation: the statement
`chat, _, _ = _ensure_clients()` unpacks the 4-tuple returned by
`_ensure_clients` into 3 targets and raises
`ValueError("too many values to unpack (expected 3)")` before the
semaphore permit is acquired — refuting the claim that every such call
acquires a permit and only surfaces errors from the client invocation. -/
theorem claim_C2 (s : GSettings) (h : s.gemini_api_key.getD "" ≠ "") :
    invoke_general s = .error (.valueError "too many values to unpack (expected 3)") ∧
    invoke_prompt_text s = .error (.valueError "too many values to unpack (expected 3)") := by
  have hcond : ¬(s.gemini_api_key.getD "" = "") := h
  constructor <;>
    simp only [invoke_general, invoke_prompt_text, ensure_clients, if_neg hcond] <;>
    rfl

theorem claim_C2_witness :
    ((⟨some "k", 4, 2⟩ : GSettings).gemini_api_key.getD "" ≠ "") ∧
    invoke_general ⟨some "k", 4, 2⟩
      = .error (.valueError "too many values to unpack (expected 3)") ∧
    invoke_prompt_text ⟨some "k", 4, 2⟩
      = .error (.valueError "too many values to unpack (expected 3)") :=
  ⟨by decide, (claim_C2 ⟨some "k", 4, 2⟩ (by decide)).1,
    (claim_C2 ⟨some "k", 4, 2⟩ (by decide)).2⟩

/-- C3 counterexample: under the `mock` provider, `summarize` on the
non-empty text list `["great product!"]` returns the serialized default
sentiment JSON object, not the first line of the rendered prompt truncated
to 160 characters — refuting the claim as stated. -/
theorem claim_C3_counterexample :
    mock_summarize 256 ["great product!"] = default_sentiment_json ∧
    mock_summarize 256 ["great product!"] ≠
      pySlice ((pySplitOn (summary_prompt_render 256 ["great product!"]) "\n").headD "") 160 := by
  exact ⟨by decide, by decide⟩

/-- C3 (amended): under the `mock` provider, `summarize(texts)` returns the
first line of the rendered summary prompt truncated to 160 characters only
when the rendered prompt contains `"summary"` case-insensitively (the fixed
template never contributes it — it must come from the texts); when the
prompt contains neither `"Analyse the sentiment"` nor `"summary"`, the mock
returns the JSON-serialized default sentiment object instead. -/
theorem claim_C3 (max_tokens : Nat) (texts : List String)
    (hA : pyContains (summary_prompt_render max_tokens texts) "Analyse the sentiment" = false) :
    (pyContains (pyLower (summary_prompt_render max_tokens texts)) "summary" = false →
      mock_summarize max_tokens texts = default_sentiment_json) ∧
    (pyContains (pyLower (summary_prompt_render max_tokens texts)) "summary" = true →
      mock_summarize max_tokens texts =
        (if pySlice ((pySplitOn (summary_prompt_render max_tokens texts) "\n").headD "") 160 = ""
         then "no summary available"
         else pySlice ((pySplitOn (summary_prompt_render max_tokens texts) "\n").headD "") 160)) := by
  constructor
  · intro hS
    unfold mock_summarize mock_ainvoke
    simp [hA, hS]
  · intro hS
    unfold mock_summarize mock_ainvoke
    simp [hA, hS, summary_prompt_render_ne_empty max_tokens texts]

theorem claim_C3_witness :
    (pyContains (summary_prompt_render 256 ["nice gadget"]) "Analyse the sentiment" = false) ∧
    (pyContains (pyLower (summary_prompt_render 256 ["nice gadget"])) "summary" = false) ∧
    mock_summarize 256 ["nice gadget"] = default_sentiment_json :=
  ⟨by decide, by decide,
    (claim_C3 256 ["nice gadget"] (by decide)).1 (by decide)⟩

/-- C4 counterexample: after `_handle_payload` adds the push time to
`io_time_ms` (total left unchanged), a run with 1 ms of processing wall
time, zero fetch time and 5 ms of push time has
`total_task_time_ms = 1 < 5 = io_time_ms`, and
`total_task_time_ms ≠ processing_wall + io_time_ms` — refuting both the
claimed inequality and the claimed equation at the final state. -/
theorem claim_C4_counterexample :
    (add_push_time sample_chunk_result 5).metrics.total_task_time_ms <
      (add_push_time sample_chunk_result 5).metrics.io_time_ms ∧
    (add_push_time sample_chunk_result 5).metrics.total_task_time_ms ≠
      processing_wall_ms sample_stage_durations +
        (add_push_time sample_chunk_result 5).metrics.io_time_ms := by
  constructor <;>
    norm_num [add_push_time, add_push_time_metrics, sample_chunk_result,
      process_chunk_result, process_chunk_metrics, processing_wall_ms,
      sample_stage_durations]

/-- C4 (amended): for nonnegative stage, fetch and push durations, after
`_handle_payload` completes the metrics satisfy: `io_time_ms` is fetch plus
push; `total_task_time_ms` equals the processing wall time plus the fetch
time only (the push time added to `io_time_ms` is not reflected in the
total); the total dominates every individual stage time; and the
`total ≥ io` invariant holds at `process_chunk` return (before the push
time is added), not necessarily afterwards. -/
theorem claim_C4 (fetch push : ℚ) (d : StageDurations)
    (hf : 0 ≤ fetch) (_hp : 0 ≤ push) (hd : d.Nonneg) :
    (add_push_time_metrics (process_chunk_metrics fetch d) push).io_time_ms = fetch + push ∧
    (add_push_time_metrics (process_chunk_metrics fetch d) push).total_task_time_ms
      = processing_wall_ms d + fetch ∧
    (process_chunk_metrics fetch d).total_task_time_ms
      ≥ (process_chunk_metrics fetch d).io_time_ms ∧
    (add_push_time_metrics (process_chunk_metrics fetch d) push).total_task_time_ms
      ≥ (add_push_time_metrics (process_chunk_metrics fetch d) push).preprocessing_time_ms ∧
    (add_push_time_metrics (process_chunk_metrics fetch d) push).total_task_time_ms
      ≥ (add_push_time_metrics (process_chunk_metrics fetch d) push).embedding_time_ms ∧
    (add_push_time_metrics (process_chunk_metrics fetch d) push).total_task_time_ms
      ≥ (add_push_time_metrics (process_chunk_metrics fetch d) push).clustering_time_ms ∧
    (add_push_time_metrics (process_chunk_metrics fetch d) push).total_task_time_ms
      ≥ (add_push_time_metrics (process_chunk_metrics fetch d) push).llm_time_ms ∧
    (add_push_time_metrics (process_chunk_metrics fetch d) push).total_task_time_ms
      ≥ (add_push_time_metrics (process_chunk_metrics fetch d) push).spike_detection_time_ms := by
  obtain ⟨h1, h2, h3, h4, h5, h6⟩ := hd
  refine ⟨rfl, rfl, ?_, ?_, ?_, ?_, ?_, ?_⟩ <;>
    simp only [add_push_time_metrics, process_chunk_metrics, processing_wall_ms, ge_iff_le] <;>
    linarith

theorem claim_C4_witness :
    ((0 : ℚ) ≤ 1 ∧ (0 : ℚ) ≤ 2 ∧ sample_stage_durations.Nonneg) ∧
    (add_push_time_metrics (process_chunk_metrics 1 sample_stage_durations) 2).io_time_ms
      = 1 + 2 :=
  ⟨⟨by norm_num, by norm_num,
      by refine ⟨?_, ?_, ?_, ?_, ?_, ?_⟩ <;> norm_num [sample_stage_durations]⟩,
    (claim_C4 1 2 sample_stage_durations (by norm_num) (by norm_num)
      (by refine ⟨?_, ?_, ?_, ?_, ?_, ?_⟩ <;> norm_num [sample_stage_durations])).1⟩

/-- C5 counterexample: the `ChunkResult` is mutated after serialization:
with a push time of 5 ms, the final object differs from the snapshot that
`push_result` serialized — its `metrics.io_time_ms` changed. -/
theorem claim_C5_counterexample :
    (handle_payload_success sample_chunk_result 5).2
        ≠ (handle_payload_success sample_chunk_result 5).1 ∧
    (handle_payload_success sample_chunk_result 5).2.metrics.io_time_ms
        ≠ (handle_payload_success sample_chunk_result 5).1.metrics.io_time_ms := by
  have h2 : (handle_payload_success sample_chunk_result 5).2.metrics.io_time_ms
      ≠ (handle_payload_success sample_chunk_result 5).1.metrics.io_time_ms := by
    norm_num [handle_payload_success, add_push_time, add_push_time_metrics,
      sample_chunk_result, process_chunk_result, process_chunk_metrics]
  exact ⟨fun h => h2 (congrArg (fun r => r.metrics.io_time_ms) h), h2⟩

/-- C5 (amended): after `push_result` has serialized and pushed the result,
exactly one field is modified: `metrics.io_time_ms` is incremented by the
push time; every other field of the `ChunkResult` (and of its metrics) is
left unchanged. -/
theorem claim_C5 (r : ChunkResult) (push : ℚ) :
    (handle_payload_success r push).1 = r ∧
    (handle_payload_success r push).2.chunk_id = r.chunk_id ∧
    (handle_payload_success r push).2.brand = r.brand ∧
    (handle_payload_success r push).2.timestamp = r.timestamp ∧
    (handle_payload_success r push).2.clusters = r.clusters ∧
    (handle_payload_success r push).2.metrics.preprocessing_time_ms
      = r.metrics.preprocessing_time_ms ∧
    (handle_payload_success r push).2.metrics.embedding_time_ms
      = r.metrics.embedding_time_ms ∧
    (handle_payload_success r push).2.metrics.clustering_time_ms
      = r.metrics.clustering_time_ms ∧
    (handle_payload_success r push).2.metrics.llm_time_ms = r.metrics.llm_time_ms ∧
    (handle_payload_success r push).2.metrics.spike_detection_time_ms
      = r.metrics.spike_detection_time_ms ∧
    (handle_payload_success r push).2.metrics.total_task_time_ms
      = r.metrics.total_task_time_ms ∧
    (handle_payload_success r push).2.metrics.io_time_ms = r.metrics.io_time_ms + push := by
  refine ⟨rfl, rfl, rfl, rfl, rfl, rfl, rfl, rfl, rfl, rfl, rfl, rfl⟩

/-- Is the provider response a `str` or a `dict`?  (Any other response is
replaced by the default sentiment dict before field extraction.) -/
def pyIsStrOrDict : PyVal → Bool
  | .pystr _ => true
  | .pydict _ => true
  | _ => false

/-- C6 counterexample: a response that is the string `"[]"` JSON-parses
successfully to a list (a non-object), and `parsed.get("positive", 0.0)`
then raises `AttributeError` — refuting the claims that `sentiment` never
raises and that a non-object parse result yields the default. -/
theorem claim_C6_counterexample :
    jsonLoads "[]" = .ok (.pylist []) ∧
    sentiment_parse (.pystr "[]")
      = .error (.attributeError "list object has no attribute get") := by
  exact ⟨rfl, rfl⟩

/-- C6 (amended): `sentiment` returns the default
`(0.33, 0.33, 0.34)` when a string response fails to JSON-parse or when
the response is neither a string nor a dict; a dict response (or a string
response parsing to a JSON object) has its fields coerced by `float(...)`
with defaults 0.0 (positive, negative) and 1.0 (neutral), returned without
renormalization.  However, a string response parsing to a non-object value
raises `AttributeError` instead of yielding the default, and a field value
that `float(...)` cannot coerce propagates that exception. -/
theorem claim_C6 :
    (∀ s : String, jsonLoads s = .error () →
      sentiment_parse (.pystr s) = .ok (33 / 100, 33 / 100, 34 / 100)) ∧
    (∀ v : PyVal, pyIsStrOrDict v = false →
      sentiment_parse v = .ok (33 / 100, 33 / 100, 34 / 100)) ∧
    (∀ (kvs : List (String × PyVal)) (p n u : ℚ),
      pyFloat (pyDictGet kvs "positive" (.pyfloat 0)) = .ok p →
      pyFloat (pyDictGet kvs "negative" (.pyfloat 0)) = .ok n →
      pyFloat (pyDictGet kvs "neutral" (.pyfloat 1)) = .ok u →
      sentiment_parse (.pydict kvs) = .ok (p, n, u)) ∧
    (∀ (s : String) (kvs : List (String × PyVal)) (p n u : ℚ),
      jsonLoads s = .ok (.pydict kvs) →
      pyFloat (pyDictGet kvs "positive" (.pyfloat 0)) = .ok p →
      pyFloat (pyDictGet kvs "negative" (.pyfloat 0)) = .ok n →
      pyFloat (pyDictGet kvs "neutral" (.pyfloat 1)) = .ok u →
      sentiment_parse (.pystr s) = .ok (p, n, u)) := by
  refine ⟨?_, ?_, ?_, ?_⟩
  · intro s hs
    simp only [sentiment_parse, hs]
    rfl
  · intro v hv
    cases v <;> simp_all [pyIsStrOrDict] <;> rfl
  · intro kvs p n u hp hn hu
    simp only [sentiment_parse, hp, hn, hu, Except.bind]
    rfl
  · intro s kvs p n u hs hp hn hu
    simp only [sentiment_parse, hs, hp, hn, hu, Except.bind]
    rfl

theorem claim_C6_witness :
    (jsonLoads "oops" = .error () ∧
      sentiment_parse (.pystr "oops") = .ok (33 / 100, 33 / 100, 34 / 100)) ∧
    (pyIsStrOrDict .pynone = false ∧
      sentiment_parse .pynone = .ok (33 / 100, 33 / 100, 34 / 100)) ∧
    sentiment_parse (.pydict [("positive", .pyfloat (1 / 2))])
      = .ok (1 / 2, 0, 1) :=
  ⟨⟨rfl, claim_C6.1 "oops" rfl⟩,
    ⟨rfl, claim_C6.2.1 .pynone rfl⟩,
    claim_C6.2.2.1 [("positive", .pyfloat (1 / 2))] (1 / 2) 0 1 rfl rfl rfl⟩

/-- C7: for every payload handled by `_handle_payload` (store appends
assumed to succeed, with `processOk` the outcome of processing and push),
exactly one of two outcomes holds: one failure-queue append and no
result-queue append (JSON decode, validation, or processing failure), or
one result-queue append and no failure-queue append; and the success
outcome occurs exactly when decoding, validation and processing all
succeed. -/
theorem claim_C7 (queue_key payload : String) (processOk : Bool) :
    ((countFailureOps (handle_payload_ops queue_key payload processOk) = 1 ∧
        countResultOps (handle_payload_ops queue_key payload processOk) = 0) ∨
      (countFailureOps (handle_payload_ops queue_key payload processOk) = 0 ∧
        countResultOps (handle_payload_ops queue_key payload processOk) = 1)) ∧
    (countResultOps (handle_payload_ops queue_key payload processOk) = 1 ↔
      (∃ raw chunk, safe_json_loads payload = Except.ok raw ∧
        chunk_validate raw = Except.ok chunk ∧ processOk = true)) := by
  unfold handle_payload_ops
  cases hj : safe_json_loads payload with
  | error e => simp [countFailureOps, countResultOps, hj]
  | ok raw =>
    cases hv : chunk_validate raw with
    | error e => simp [countFailureOps, countResultOps, hv]
    | ok chunk =>
      cases processOk <;> simp [countFailureOps, countResultOps, hv]

/-- Accumulator form of first-occurrence deduplication: drop strings
already in `seen`, keep the first occurrence of the rest. -/
def dedup_first_from (seen : List String) : List String → List String
  | [] => []
  | x :: xs =>
    if x ∈ seen then dedup_first_from seen xs
    else x :: dedup_first_from (seen ++ [x]) xs

theorem dedup_first_cons (x : String) (xs : List String) :
    dedup_first (x :: xs) = x :: dedup_first (xs.filter (fun y => y ≠ x)) := by
  rw [dedup_first]

/-- `dedup_first` returns a sublist: order is preserved and nothing new
appears. -/
theorem dedup_first_sublist (l : List String) : List.Sublist (dedup_first l) l := by
  induction l using dedup_first.induct with
  | case1 => simp [dedup_first]
  | case2 x xs ih =>
    rw [dedup_first_cons]
    exact List.Sublist.cons₂ x (ih.trans (List.filter_sublist xs))

/-- `dedup_first` returns a duplicate-free list. -/
theorem dedup_first_nodup (l : List String) : (dedup_first l).Nodup := by
  induction l using dedup_first.induct with
  | case1 => simp [dedup_first]
  | case2 x xs ih =>
    rw [dedup_first_cons]
    refine List.Nodup.cons ?_ ih
    intro hmem
    have hx := (dedup_first_sublist _).subset hmem
    simp at hx

/-- The accumulator form agrees with `dedup_first` on the input purged of
the strings already seen. -/
theorem dedup_first_from_eq (l : List String) :
    ∀ seen : List String,
      dedup_first_from seen l = dedup_first (l.filter (fun t => t ∉ seen)) := by
  induction l with
  | nil => intro seen; simp [dedup_first_from, dedup_first]
  | cons x xs ih =>
    intro seen
    by_cases hx : x ∈ seen
    · simp [dedup_first_from, hx, ih seen]
    · have hfil : xs.filter (fun t => t ∉ seen ++ [x])
          = (xs.filter (fun t => t ∉ seen)).filter (fun y => y ≠ x) := by
        rw [List.filter_filter]
        refine List.filter_congr ?_
        intro t _
        simp [List.mem_append, not_or, and_comm]
      simp only [dedup_first_from, hx, if_false, List.filter_cons,
        decide_not]
      rw [ih (seen ++ [x]), hfil]
      simp [hx, dedup_first_cons]

/-- The keys of the dict built by `preprocess_go` are the seen keys
followed by the first-occurrence deduplication of the nonempty cleaned
texts not already seen. -/
theorem preprocess_go_keys (ms : List Mention) :
    ∀ seen : List (String × Mention),
      (preprocess_go seen ms).map Prod.fst
        = seen.map Prod.fst ++
          dedup_first_from (seen.map Prod.fst)
            ((ms.map (fun m => clean_text m.text)).filter (fun t => t ≠ "")) := by
  induction ms with
  | nil => intro seen; simp [preprocess_go, dedup_first_from]
  | cons m ms ih =>
    intro seen
    by_cases hc : clean_text m.text = ""
    · simp [preprocess_go, hc, ih seen, dedup_first_from]
    · by_cases hm : clean_text m.text ∈ seen.map Prod.fst
      · simp [preprocess_go, hc, hm, ih seen, dedup_first_from]
      · simp only [preprocess_go, hc, if_false, hm, ih]
        simp [hc, hm, dedup_first_from, List.filter_cons]

/-- Every mention stored by `preprocess_go` has its (cleaned) text as its
dict key, provided the seen entries already do. -/
theorem preprocess_go_text (ms : List Mention) :
    ∀ seen : List (String × Mention), (∀ kv ∈ seen, kv.2.text = kv.1) →
      ∀ kv ∈ preprocess_go seen ms, kv.2.text = kv.1 := by
  induction ms with
  | nil => intro seen hseen kv hkv; exact hseen kv hkv
  | cons m ms ih =>
    intro seen hseen kv hkv
    simp only [preprocess_go] at hkv
    by_cases hc : clean_text m.text = ""
    · rw [if_pos hc] at hkv
      exact ih seen hseen kv hkv
    · rw [if_neg hc] at hkv
      by_cases hm : clean_text m.text ∈ seen.map Prod.fst
      · rw [if_pos hm] at hkv
        exact ih seen hseen kv hkv
      · rw [if_neg hm] at hkv
        refine ih _ ?_ kv hkv
        intro kv' hkv'
        rcases List.mem_append.mp hkv' with h | h
        · exact hseen kv' h
        · simp at h
          subst h
          simp [rebuiltMention]

/-- C8: `_preprocess` cleans each text (URL stripping, whitespace
collapsing, trimming, lowercasing via `_clean_text`), drops empty cleaned
texts, and deduplicates by cleaned text keeping the first occurrence in
first-seen order: the output texts are exactly the first-occurrence
deduplication of the nonempty cleaned input texts, are pairwise distinct,
and form an order-preserving sublist of the nonempty cleaned input
texts. -/
theorem claim_C8 (mentions : List Mention) :
    (preprocess mentions).map (fun m => m.text)
      = dedup_first ((mentions.map (fun m => clean_text m.text)).filter (fun t => t ≠ "")) ∧
    ((preprocess mentions).map (fun m => m.text)).Nodup ∧
    List.Sublist ((preprocess mentions).map (fun m => m.text))
      ((mentions.map (fun m => clean_text m.text)).filter (fun t => t ≠ "")) := by
  have htext : (preprocess mentions).map (fun m => m.text)
      = (preprocess_go [] mentions).map Prod.fst := by
    unfold preprocess
    rw [List.map_map]
    refine List.map_congr_left ?_
    intro kv hkv
    exact preprocess_go_text mentions [] (by simp) kv hkv
  have hkeys := preprocess_go_keys mentions []
  simp only [List.map_nil, List.nil_append] at hkeys
  have hfrom := dedup_first_from_eq
    ((mentions.map (fun m => clean_text m.text)).filter (fun t => t ≠ "")) []
  simp at hfrom
  have hmain : (preprocess mentions).map (fun m => m.text)
      = dedup_first ((mentions.map (fun m => clean_text m.text)).filter (fun t => t ≠ "")) := by
    rw [htext, hkeys]
    simpa using hfrom
  refine ⟨hmain, ?_, ?_⟩
  · rw [hmain]; exact dedup_first_nodup _
  · rw [hmain]; exact dedup_first_sublist _

theorem bytes4_lt (w : Nat) : ∀ b ∈ bytes4 w, b < 256 := by
  intro b hb
  simp [bytes4] at hb
  rcases hb with rfl | rfl | rfl | rfl <;> exact Nat.mod_lt _ (by norm_num)

/-- A SHA-256 digest has 32 bytes. -/
theorem sha256_length (msg : List Nat) : (sha256 msg).length = 32 := by
  simp [sha256, bytes4]

/-- Every byte of a SHA-256 digest is below 256. -/
theorem sha256_byte_lt (msg : List Nat) : ∀ b ∈ sha256 msg, b < 256 := by
  intro b hb
  simp only [sha256, List.mem_append] at hb
  rcases hb with ((((((h | h) | h) | h) | h) | h) | h) | h <;> exact bytes4_lt _ b h

/-- C9: the hash-based fallback embedding is deterministic (it is a pure
function of the texts), produces one row per text in order, derives row
`i` from the SHA-256 digest of text `i` repeat-tiled to length 384 and
divided by 255, and every component lies in `[0, 1]`. -/
theorem claim_C9 (texts : List String) :
    hash_embed 384 texts = hash_embed 384 texts ∧
    (hash_embed 384 texts).length = texts.length ∧
    hash_embed 384 texts = texts.map (hash_embed_row 384) ∧
    (∀ t ∈ texts,
      hash_embed_row 384 t
        = ((List.replicate 12 (sha256 (utf8Encode t))).flatten.take 384).map byteToUnit ∧
      (hash_embed_row 384 t).length = 384 ∧
      ∀ q ∈ hash_embed_row 384 t, 0 ≤ q ∧ q ≤ 1) := by
  refine ⟨rfl, List.length_map _ _, rfl, ?_⟩
  intro t _
  have hrow : hash_embed_row 384 t
      = ((List.replicate 12 (sha256 (utf8Encode t))).flatten.take 384).map byteToUnit := by
    simp only [hash_embed_row, sha256_length]
  have hflatlen : ((List.replicate 12 (sha256 (utf8Encode t))).flatten).length = 384 := by
    rw [List.length_flatten, List.map_replicate, sha256_length, List.sum_replicate]
    norm_num
  refine ⟨hrow, ?_, ?_⟩
  · rw [hrow, List.length_map, List.length_take, hflatlen]
    simp
  · intro q hq
    rw [hrow] at hq
    obtain ⟨b, hb, rfl⟩ := List.mem_map.mp hq
    have hbdig : b ∈ sha256 (utf8Encode t) := by
      have hb' := List.mem_of_mem_take hb
      obtain ⟨l, hl, hbl⟩ := List.mem_flatten.mp hb'
      rwa [List.eq_of_mem_replicate hl] at hbl
    have hlt : b < 256 := sha256_byte_lt _ b hbdig
    unfold byteToUnit
    constructor
    · positivity
    · rw [div_le_one (by norm_num : (0 : ℚ) < 255)]
      exact_mod_cast Nat.le_of_lt_succ hlt

theorem claim_C9_witness :
    ("a" ∈ (["a"] : List String)) ∧ (hash_embed_row 384 "a").length = 384 :=
  ⟨by decide, ((claim_C9 ["a"]).2.2.2 "a" (by decide)).2.1⟩

/-- A second call to `effective_worker_id` returns the same id and leaves
the process state unchanged. -/
theorem effective_worker_id_stable (s : ProcState) :
    effective_worker_id (effective_worker_id s).2
      = ((effective_worker_id s).1, (effective_worker_id s).2) := by
  obtain ⟨env, supply, counter, cache⟩ := s
  cases cache with
  | none =>
    by_cases henv : env.getD "" ≠ ""
    · simp [effective_worker_id, get_settings, henv]
    · simp [effective_worker_id, get_settings, henv]
  | some obj =>
    obtain ⟨wid, gen⟩ := obj
    by_cases hw : wid.getD "" ≠ ""
    · simp [effective_worker_id, get_settings, hw]
    · cases gen with
      | some g => simp [effective_worker_id, get_settings, hw]
      | none => simp [effective_worker_id, get_settings, hw]

/-- C10: within one process, every call to
`get_settings().effective_worker_id` returns the same string as the first
call (whether `worker_id` is configured or the `worker-<uuid>` identifier
is generated on first access), and `get_settings` returns the same cached
`Settings` instance without further state change. -/
theorem claim_C10 (s : ProcState) (n : Nat) :
    (worker_id_calls s n).1 = (worker_id_calls s 0).1 ∧
    (get_settings (get_settings s).2).1 = (get_settings s).1 ∧
    (get_settings (get_settings s).2).2 = (get_settings s).2 := by
  have hstable : ∀ m : Nat, worker_id_calls s m = effective_worker_id s := by
    intro m
    induction m with
    | zero => rfl
    | succ k ih =>
      show effective_worker_id (worker_id_calls s k).2 = _
      rw [ih]
      exact effective_worker_id_stable s
  refine ⟨by rw [hstable n, hstable 0], ?_, ?_⟩ <;>
  · obtain ⟨env, supply, counter, cache⟩ := s
    cases cache <;> rfl

end Worker
